import Mathlib

/-!
Verification development for the `express-redis-rate-limit` middleware
(`src/index.js`).

The middleware is embedded shallowly:

* The JavaScript option values handled by `validateOptions` and by lodash
  `defaults` are modelled by `JSVal` (numbers as `Int`, strings, booleans,
  and abstract object / regexp / function values distinguished by a tag).
* The per-request protocol (`checkRequestExists`, `getRequestCount`,
  `getRequestTTL`, `incrRequestCount`, `setRequestTTL`, composed by
  `async.waterfall` and rendered by `rateLimitGate`) is embedded as pure
  functions over a single-key view of the redis store (`Cache`), with the
  request arrival time passed explicitly in milliseconds.
* Store faults are injected through `OpErrors` (one flag per redis call).
  The source reads `if (error) next(error); next(null, ...)` with no
  `return`, and the repository's `async` dependency (1.x) wraps only the
  *final* waterfall callback in `_once` while each task callback may be
  invoked repeatedly: the first `next(error)` call reaches `rateLimitGate`
  (sending the 500 response), and the second `next(null, ...)` call then
  continues the waterfall with the values computed from the error-case
  `undefined` reply (`parseInt(undefined)` is `NaN`, `!!NaN` is `false`,
  and `NaN > x` is `false`).  The embedding reproduces exactly that: an
  errored step both records the error (first callback invocation) and
  feeds its garbage value to the following steps (second invocation).
* Key derivation (`replaceID`) is embedded over `List Char` keys with the
  regexp abstracted as a first-match function.
-/

namespace ERRL

/-! ## JavaScript option values -/

/-- A JavaScript value as far as `validateOptions` and lodash `defaults`
can observe one: `typeof` and truthiness, plus a tag distinguishing
distinct object / regexp / function constants. -/
inductive JSVal where
  | undefined
  | num (n : Int)
  | str (s : String)
  | bool (b : Bool)
  | regex (tag : Nat)
  | obj (tag : Nat)
  | fn (tag : Nat)
deriving DecidableEq, Repr

/-- JavaScript `typeof`. `typeof` of a regexp object is `"object"`. -/
def jsTypeof : JSVal → String
  | .undefined => "undefined"
  | .num _ => "number"
  | .str _ => "string"
  | .bool _ => "boolean"
  | .regex _ => "object"
  | .obj _ => "object"
  | .fn _ => "function"

/-- JavaScript truthiness: `undefined`, `0`, `""` and `false` are falsy;
objects, regexps and functions are always truthy. -/
def truthy : JSVal → Bool
  | .undefined => false
  | .num n => decide (n ≠ 0)
  | .str s => decide (s ≠ "")
  | .bool b => b
  | .regex _ => true
  | .obj _ => true
  | .fn _ => true

/-- `typeof v === 'number' && v > 0`, the test used for the numeric
options. -/
def isPositiveNumber : JSVal → Bool
  | .num n => decide (0 < n)
  | _ => false

/-- The user options object: one `JSVal` per property read by the source
(a missing property is `undefined`).  `enforceRequestSpreading` is kept
because the repository's README and test suite use it, even though
`src/index.js` never reads it. -/
structure OptsIn where
  requestLimit : JSVal := .undefined
  timeWindow : JSVal := .undefined
  enforceRequestSpreading : JSVal := .undefined
  idMatcher : JSVal := .undefined
  idValue : JSVal := .undefined
  createKey : JSVal := .undefined
  rateLimitMessage : JSVal := .undefined
  internalErrorMessage : JSVal := .undefined
deriving DecidableEq, Repr

/-- The `options` argument of `ExpressRedisRateLimit(cache, options)`:
absent (`undefined`), `null`, some non-object value, or an object. -/
inductive OptionsArg where
  | undef
  | null
  | nonObject (v : JSVal)
  | object (o : OptsIn)
deriving DecidableEq, Repr

/-- `validateOptions` from `src/index.js` (lines 281-321), translated
check by check and in source order.  `if (!options) return ` with an
empty object covers `undefined`, `null` and falsy primitives; a truthy
non-object throws "Options must be an object.". -/
def validateOptions : OptionsArg → Except String OptsIn
  | .undef => .ok {}
  | .null => .ok {}
  | .nonObject v =>
    if !truthy v then .ok {}
    else .error "Options must be an object."
  | .object o =>
    if truthy o.requestLimit && !isPositiveNumber o.requestLimit then
      .error "Request limit option must be a positive number."
    else if truthy o.timeWindow && !isPositiveNumber o.timeWindow then
      .error "Time window option must be a positive number."
    else if truthy o.idMatcher && !(jsTypeof o.idMatcher == "object") then
      .error "ID matcher option must be a regular expression."
    else if truthy o.idMatcher && truthy o.idValue
        && !(jsTypeof o.idValue == "string") then
      .error "ID value option must be a string."
    else if truthy o.createKey && !(jsTypeof o.createKey == "function") then
      .error "Create key option must be a function."
    else if truthy o.rateLimitMessage
        && !(jsTypeof o.rateLimitMessage == "function"
             || jsTypeof o.rateLimitMessage == "object") then
      .error "Rate limit message option must be a function or an object."
    else if truthy o.internalErrorMessage
        && !(jsTypeof o.internalErrorMessage == "object") then
      .error "Internal error message option must be an object."
    else .ok o

/-- lodash `defaults` on one property: the default is taken exactly when
the current value is `undefined`. -/
def defaultTo (v d : JSVal) : JSVal := if v = .undefined then d else v

/-- `defaultOptions` from `src/index.js` (lines 46-69).  Tags: `regex 0`
is the MongoDB id matcher regexp, `fn 0` the default `createKey`, `fn 1`
the default `rateLimitMessage`, `obj 0` the default
`internalErrorMessage`.  There is no `enforceRequestSpreading` default:
the source object has no such key. -/
def defaultOptions : OptsIn where
  requestLimit := .num 60
  timeWindow := .num 60
  idMatcher := .regex 0
  idValue := .str ":id"
  createKey := .fn 0
  rateLimitMessage := .fn 1
  internalErrorMessage := .obj 0

/-- `defaults(validatedOptions, defaultOptions)` applied field by field. -/
def applyDefaults (o : OptsIn) : OptsIn where
  requestLimit := defaultTo o.requestLimit defaultOptions.requestLimit
  timeWindow := defaultTo o.timeWindow defaultOptions.timeWindow
  enforceRequestSpreading :=
    defaultTo o.enforceRequestSpreading defaultOptions.enforceRequestSpreading
  idMatcher := defaultTo o.idMatcher defaultOptions.idMatcher
  idValue := defaultTo o.idValue defaultOptions.idValue
  createKey := defaultTo o.createKey defaultOptions.createKey
  rateLimitMessage := defaultTo o.rateLimitMessage defaultOptions.rateLimitMessage
  internalErrorMessage :=
    defaultTo o.internalErrorMessage defaultOptions.internalErrorMessage

/-- The option processing performed by `ExpressRedisRateLimit` at
construction time (line 74): validate, then fill defaults.  The source
performs no other transformation of the options before returning the
middleware; in particular it never reads `enforceRequestSpreading`. -/
def ExpressRedisRateLimit (arg : OptionsArg) : Except String OptsIn :=
  (validateOptions arg).map applyDefaults

/-! ## The runtime window counter -/

/-- The resolved numeric configuration used by the per-request code:
`options.requestLimit` requests per `options.timeWindow` seconds. -/
structure Config where
  requestLimit : Nat
  timeWindow : Nat
deriving DecidableEq, Repr

/-- The redis entry for one derived key: the counter value and, when
`PEXPIRE` has been applied, the absolute expiry instant in ms. -/
structure Entry where
  count : Nat
  expireAt : Option Int
deriving DecidableEq, Repr

/-- Single-key view of the redis store. -/
abbrev Cache := Option Entry

/-- Error injection: one flag per redis call made by the middleware. -/
structure OpErrors where
  existsErr : Bool
  getErr : Bool
  pttlErr : Bool
  incrErr : Bool
  pexpireErr : Bool
deriving DecidableEq, Repr

def noErrors : OpErrors := ⟨false, false, false, false, false⟩

/-- Redis `EXISTS` at instant `now`: an entry counts as existing while it
has no expiry or its expiry instant is still in the future. -/
def keyExists : Cache → Int → Bool
  | none, _ => false
  | some e, now =>
    match e.expireAt with
    | none => true
    | some x => decide (now < x)

/-- The stored counter value (`0` for a missing key; only read when the
key exists). -/
def storedCount : Cache → Nat
  | none => 0
  | some e => e.count

/-- Redis `PTTL` reply: remaining ms, `-1` for a key without expiry,
`-2` for a missing key. -/
def pttlReply : Cache → Int → Int
  | none, _ => -2
  | some e, now =>
    match e.expireAt with
    | none => -1
    | some x => x - now

/-- Redis `INCR`: increments an existing key preserving its expiry;
creates a missing (or expired) key at `1` with no expiry. -/
def redisIncr (st : Cache) (now : Int) : Cache :=
  match st with
  | some e =>
    if keyExists (some e) now then some ⟨e.count + 1, e.expireAt⟩
    else some ⟨1, none⟩
  | none => some ⟨1, none⟩

/-- Redis `PEXPIRE`: on an existing key sets the expiry `ttl` ms from
`now` (a non-positive `ttl` deletes the key); no effect on a missing
key. -/
def redisPexpire (st : Cache) (ttl now : Int) : Cache :=
  match st with
  | some e =>
    if keyExists (some e) now then
      if ttl ≤ 0 then none
      else some ⟨e.count, some (now + ttl)⟩
    else some e
  | none => none

/-- Step 1, `checkRequestExists` (lines 107-112): result is
(error flag, exists).  On a store error the waterfall still continues
with `!!parseInt(undefined) = false`. -/
def checkRequestExists (er : OpErrors) (st : Cache) (now : Int) :
    Bool × Bool :=
  if er.existsErr then (true, false) else (false, keyExists st now)

/-- Step 2, `getRequestCount` (lines 121-132): `storedCount + 1` when the
key exists, else `1` without touching the store.  On a store error the
continued waterfall carries `parseInt(undefined) + 1 = NaN`, modelled as
`none`. -/
def getRequestCount (er : OpErrors) (st : Cache) (exs : Bool) :
    Bool × Option Nat :=
  if exs then
    if er.getErr then (true, none) else (false, some (storedCount st + 1))
  else (false, some 1)

/-- Step 3, `getRequestTTL` (lines 142-153): `PTTL` when the key exists,
else a fresh `timeWindow * 1000`.  `NaN` on error, modelled as `none`. -/
def getRequestTTL (cfg : Config) (er : OpErrors) (st : Cache) (now : Int)
    (exs : Bool) : Bool × Option Int :=
  if exs then
    if er.pttlErr then (true, none) else (false, some (pttlReply st now))
  else (false, some ((cfg.timeWindow : Int) * 1000))

/-- `count > options.requestLimit` with JS comparison semantics:
`NaN > x` is `false`. -/
def atLimitOf (cfg : Config) : Option Nat → Bool
  | some c => decide (cfg.requestLimit < c)
  | none => false

/-- Step 4, `incrRequestCount` (lines 163-176): skip the `INCR` when at
the limit; a failed `INCR` leaves the counter untouched. Result is
(error flag, atLimit, store). -/
def incrRequestCount (cfg : Config) (er : OpErrors) (st : Cache)
    (now : Int) (count : Option Nat) : Bool × Bool × Cache :=
  let atLimit := atLimitOf cfg count
  if atLimit then (false, atLimit, st)
  else if er.incrErr then (true, atLimit, st)
  else (false, atLimit, redisIncr st now)

/-- Step 5, `setRequestTTL` (lines 187-198): skip the `PEXPIRE` when at
the limit.  A `NaN` ttl (carried from an errored step 3) makes the
`PEXPIRE` call itself fail without effect. -/
def setRequestTTL (er : OpErrors) (st : Cache) (now : Int)
    (ttl : Option Int) (atLimit : Bool) : Bool × Cache :=
  if atLimit then (false, st)
  else if er.pexpireErr then (true, st)
  else
    match ttl with
    | none => (true, st)
    | some t => (false, redisPexpire st t now)

/-- The decision carried to `rateLimitGate`. -/
structure Decision where
  count : Nat
  ttl : Int
  atLimit : Bool
deriving DecidableEq, Repr

/-- The `async.waterfall` of the five steps for one request at instant
`now`: returns the value seen by the *first* invocation of the final
callback (`none` exactly when some executed redis call reported an
error, in which case the 500 path runs) together with the store state
after all effects, including those of the steps the buggy error path
still executes. -/
def runSteps (cfg : Config) (er : OpErrors) (st : Cache) (now : Int) :
    Option Decision × Cache :=
  let s1 := checkRequestExists er st now
  let s2 := getRequestCount er st s1.2
  let s3 := getRequestTTL cfg er st now s1.2
  let s4 := incrRequestCount cfg er st now s2.2
  let s5 := setRequestTTL er s4.2.2 now s3.2 s4.2.1
  if s1.1 || s2.1 || s3.1 || s4.1 || s5.1 then (none, s5.2)
  else
    match s2.2, s3.2 with
    | some c, some t => (some ⟨c, t, s4.2.1⟩, s5.2)
    | _, _ => (none, s5.2)

/-- The response body produced by this middleware: the rendered
`rateLimitMessage` (a function of the ttl, or the configured static
object) or the configured `internalErrorMessage`. -/
inductive Body where
  | rateLimitMsg (ttl : Int)
  | internalErrorMsg
deriving DecidableEq, Repr

/-- What the middleware does with the response: call the `done`
continuation, or send a status code with a body. -/
inductive Action where
  | next
  | send (status : Nat) (body : Body)
deriving DecidableEq, Repr

/-- The four `X-RateLimit` header values. -/
structure Headers where
  limit : Nat
  remaining : Int
  window : Int
  reset : Int
deriving DecidableEq, Repr

/-- The response as observed by the client: the headers set by the
middleware (if any) and what it did. -/
structure Response where
  headers : Option Headers
  action : Action
deriving DecidableEq, Repr

/-- `requestsRemaining` (lines 254-258): `requestLimit - count`, clamped
at `0`. -/
def requestsRemaining (cfg : Config) (count : Nat) : Int :=
  let remaining : Int := (cfg.requestLimit : Int) - (count : Int)
  if remaining < 0 then 0 else remaining

/-- `setRateLimitHeaders` (lines 240-247). -/
def setRateLimitHeaders (cfg : Config) (d : Decision) : Headers where
  limit := cfg.requestLimit
  remaining := requestsRemaining cfg d.count
  window := (cfg.timeWindow : Int) * 1000
  reset := d.ttl

/-- `rateLimitGate` (lines 209-225): on error return the 500 response
*before* any header is set; otherwise set the headers and either send
429 or call the continuation. -/
def rateLimitGate (cfg : Config) : Option Decision → Response
  | none => { headers := none, action := .send 500 .internalErrorMsg }
  | some d =>
    let h := setRateLimitHeaders cfg d
    if d.atLimit then
      { headers := some h, action := .send 429 (.rateLimitMsg d.ttl) }
    else { headers := some h, action := .next }

/-- One full request: run the five-step waterfall and render. -/
def rateLimit (cfg : Config) (er : OpErrors) (st : Cache) (now : Int) :
    Response × Cache :=
  (rateLimitGate cfg (runSteps cfg er st now).1,
   (runSteps cfg er st now).2)

/-- A sequence of error-free same-key requests at the given instants. -/
def runTimes (cfg : Config) : Cache → List Int → List Response × Cache
  | st, [] => ([], st)
  | st, t :: ts =>
    ((rateLimit cfg noErrors st t).1
        :: (runTimes cfg (rateLimit cfg noErrors st t).2 ts).1,
     (runTimes cfg (rateLimit cfg noErrors st t).2 ts).2)

/-- The request was let through (`done()` was called). -/
def isNext (r : Response) : Bool :=
  match r.action with
  | .next => true
  | _ => false

/-- The request was rejected with status 429. -/
def is429 (r : Response) : Bool :=
  match r.action with
  | .send s _ => s == 429
  | _ => false

/-! ## Key derivation -/

/-- A raw or derived cache key (a JavaScript string). -/
abbrev Key := List Char

/-- A regular expression abstracted by its first-match behaviour: for a
key it reports the start index and length of the first matching region,
or `none` when nothing matches. -/
abbrev Matcher := Key → Option (Nat × Nat)

/-- The key-derivation slice of the options: `idMatcher` (`none` when the
option is `false`) and `idValue`. -/
structure KeyConfig where
  idMatcher : Option Matcher
  idValue : Key

/-- Replace the region of length `l` starting at `i` with `v`. -/
def substFirst (i l : Nat) (v : Key) (k : Key) : Key :=
  k.take i ++ v ++ k.drop (i + l)

/-- JavaScript `key.replace(regexp, value)` for a non-global regexp:
substitute the first match, or return the key unchanged when there is no
match. -/
def replaceMatch (m : Matcher) (v : Key) (k : Key) : Key :=
  match m k with
  | some (i, l) => substFirst i l v k
  | none => k

/-- `replaceID` (lines 267-272): the substitution runs only under
`options.idMatcher && options.idValue`, so it is skipped both when the
matcher is disabled and when `idValue` is the (falsy) empty string. -/
def replaceID (kc : KeyConfig) (k : Key) : Key :=
  match kc.idMatcher with
  | some m => if kc.idValue = [] then k else replaceMatch m kc.idValue k
  | none => k

/-- A concrete matcher used in witnesses: matches the final character of
a non-empty key (an anchored one-character pattern). -/
def lastCharMatcher : Matcher := fun k =>
  if k.length = 0 then none else some (k.length - 1, 1)

/-! ## Helper lemmas -/

/-- `requestsRemaining` is the clamped difference. -/
lemma requestsRemaining_eq_max (cfg : Config) (c : Nat) :
    requestsRemaining cfg c = max 0 ((cfg.requestLimit : Int) - (c : Int)) := by
  simp only [requestsRemaining]
  split_ifs <;> omega

lemma requestsRemaining_nonneg (cfg : Config) (c : Nat) :
    0 ≤ requestsRemaining cfg c := by
  simp only [requestsRemaining]
  split_ifs <;> omega

lemma requestsRemaining_le (cfg : Config) {c c' : Nat} (h : c ≤ c') :
    requestsRemaining cfg c' ≤ requestsRemaining cfg c := by
  simp only [requestsRemaining]
  split_ifs <;> omega

lemma rateLimit_eq (cfg : Config) (er : OpErrors) (st : Cache) (now : Int)
    {d : Option Decision} {st2 : Cache}
    (hs : runSteps cfg er st now = (d, st2)) :
    rateLimit cfg er st now = (rateLimitGate cfg d, st2) := by
  simp [rateLimit, hs]

/-- One error-free request on a live entry: decision
`(count+1, remaining ttl, count+1 > limit)`; under the limit the counter
is incremented and the re-applied `PEXPIRE` leaves the expiry instant
unchanged; at the limit the store is untouched. -/
lemma runSteps_allowed (cfg : Config) (c : Nat) (x t : Int) (ht : t < x)
    (hL : c + 1 ≤ cfg.requestLimit) :
    runSteps cfg noErrors (some ⟨c, some x⟩) t
      = (some ⟨c + 1, x - t, false⟩, some ⟨c + 1, some x⟩) := by
  have hex : keyExists (some ⟨c, some x⟩) t = true := by
    simp [keyExists, ht]
  have hA : atLimitOf cfg (some (c + 1)) = false := by
    simp only [atLimitOf, decide_eq_false_iff_not]
    omega
  have h1 : ¬ x - t ≤ 0 := by omega
  have h2 : t + (x - t) = x := by omega
  simp [runSteps, checkRequestExists, getRequestCount, getRequestTTL,
    incrRequestCount, setRequestTTL, noErrors, hex, hA, storedCount,
    pttlReply, redisIncr, redisPexpire, keyExists, ht, h1, h2]

lemma runSteps_denied (cfg : Config) (c : Nat) (x t : Int) (ht : t < x)
    (hL : cfg.requestLimit < c + 1) :
    runSteps cfg noErrors (some ⟨c, some x⟩) t
      = (some ⟨c + 1, x - t, true⟩, some ⟨c, some x⟩) := by
  have hex : keyExists (some ⟨c, some x⟩) t = true := by
    simp [keyExists, ht]
  have hA : atLimitOf cfg (some (c + 1)) = true := by
    simp only [atLimitOf, decide_eq_true_eq]
    omega
  simp [runSteps, checkRequestExists, getRequestCount, getRequestTTL,
    incrRequestCount, setRequestTTL, noErrors, hex, hA, storedCount,
    pttlReply]

/-- One error-free request on a missing (or expired) key with a sane
configuration: allowed, counter created at `1`, fresh full window. -/
lemma runSteps_fresh (cfg : Config) (st : Cache) (t : Int)
    (hex : keyExists st t = false) (hN : 0 < cfg.requestLimit)
    (hW : 0 < cfg.timeWindow) :
    runSteps cfg noErrors st t
      = (some ⟨1, (cfg.timeWindow : Int) * 1000, false⟩,
         some ⟨1, some (t + (cfg.timeWindow : Int) * 1000)⟩) := by
  have hA : atLimitOf cfg (some 1) = false := by
    simp only [atLimitOf, decide_eq_false_iff_not]
    omega
  have h1 : ¬ (cfg.timeWindow : Int) * 1000 ≤ 0 := by
    have : (0 : Int) < (cfg.timeWindow : Int) := by exact_mod_cast hW
    omega
  cases st with
  | none =>
    simp [runSteps, checkRequestExists, getRequestCount, getRequestTTL,
      incrRequestCount, setRequestTTL, noErrors, hex, hA, redisIncr,
      redisPexpire, keyExists, h1]
  | some e =>
    cases he : e.expireAt with
    | none => simp [keyExists, he] at hex
    | some x =>
      have hx : ¬ t < x := by simpa [keyExists, he] using hex
      simp [runSteps, checkRequestExists, getRequestCount, getRequestTTL,
        incrRequestCount, setRequestTTL, noErrors, hA, redisIncr,
        redisPexpire, keyExists, he, hx, h1]

/-- The decision produced by an error-free request, for any store state:
tentative count, ttl as read (or a fresh window), and the strict
`count > requestLimit` test. -/
lemma runSteps_noErrors_fst (cfg : Config) (st : Cache) (now : Int) :
    (runSteps cfg noErrors st now).1
      = some ⟨(if keyExists st now then storedCount st + 1 else 1),
              (if keyExists st now then pttlReply st now
               else (cfg.timeWindow : Int) * 1000),
              atLimitOf cfg
                (some (if keyExists st now then storedCount st + 1 else 1))⟩ := by
  by_cases hex : keyExists st now <;>
    by_cases hA : atLimitOf cfg
      (some (if keyExists st now then storedCount st + 1 else 1)) = true <;>
    simp_all [runSteps, checkRequestExists, getRequestCount, getRequestTTL,
      incrRequestCount, setRequestTTL, noErrors]

/-- An error-free request that is at the limit leaves the store
untouched. -/
lemma runSteps_atLimit_frame (cfg : Config) (st : Cache) (now : Int)
    (d : Decision) (st2 : Cache)
    (h : runSteps cfg noErrors st now = (some d, st2))
    (hA : d.atLimit = true) : st2 = st := by
  have hfst := runSteps_noErrors_fst cfg st now
  rw [h] at hfst
  have hd : d = ⟨(if keyExists st now then storedCount st + 1 else 1),
      (if keyExists st now then pttlReply st now
       else (cfg.timeWindow : Int) * 1000),
      atLimitOf cfg
        (some (if keyExists st now then storedCount st + 1 else 1))⟩ :=
    Option.some.inj hfst
  have hA2 : atLimitOf cfg
      (some (if keyExists st now then storedCount st + 1 else 1)) = true := by
    rw [hd] at hA
    exact hA
  have h2 : (runSteps cfg noErrors st now).2 = st := by
    by_cases hex : keyExists st now <;>
      simp_all [runSteps, checkRequestExists, getRequestCount, getRequestTTL,
        incrRequestCount, setRequestTTL, noErrors]
  rw [h] at h2
  exact h2

lemma storedCount_redisPexpire (st : Cache) (ttl now : Int) :
    storedCount (redisPexpire st ttl now) ≤ storedCount st := by
  cases st with
  | none => simp [redisPexpire, storedCount]
  | some e =>
    simp only [redisPexpire]
    split_ifs <;> simp [storedCount]

lemma storedCount_redisIncr (st : Cache) (now : Int) :
    storedCount (redisIncr st now) ≤ storedCount st + 1 := by
  cases st with
  | none => simp [redisIncr, storedCount]
  | some e =>
    simp only [redisIncr]
    split_ifs <;> simp [storedCount]

lemma storedCount_redisIncr_fresh (st : Cache) (now : Int)
    (hex : keyExists st now = false) :
    storedCount (redisIncr st now) = 1 := by
  cases st with
  | none => simp [redisIncr, storedCount]
  | some e => simp [redisIncr, hex, storedCount]

/-- The headers attached by `rateLimitGate` when a decision was reached,
in either branch. -/
lemma gate_headers (cfg : Config) (d : Decision) :
    (rateLimitGate cfg (some d)).headers = some (setRateLimitHeaders cfg d) := by
  by_cases hA : d.atLimit <;> simp [rateLimitGate, hA]

lemma gate_isNext (cfg : Config) (d : Decision) :
    isNext (rateLimitGate cfg (some d)) = !d.atLimit := by
  by_cases hA : d.atLimit <;> simp [rateLimitGate, hA, isNext]

lemma gate_is429 (cfg : Config) (d : Decision) :
    is429 (rateLimitGate cfg (some d)) = d.atLimit := by
  by_cases hA : d.atLimit <;> simp [rateLimitGate, hA, is429]

/-- Same-key requests inside a live window starting from a stored count
`c`: the first `requestLimit - c` are let through, all later ones are
rejected with 429. -/
lemma runTimes_pattern (cfg : Config) (ts : List Int) :
    ∀ (c : Nat) (x : Int), (∀ t ∈ ts, t < x) →
      cfg.requestLimit ≤ c + ts.length → c ≤ cfg.requestLimit →
      (runTimes cfg (some ⟨c, some x⟩) ts).1.map isNext
          = List.replicate (cfg.requestLimit - c) true
            ++ List.replicate (ts.length - (cfg.requestLimit - c)) false
        ∧ (runTimes cfg (some ⟨c, some x⟩) ts).1.map is429
          = List.replicate (cfg.requestLimit - c) false
            ++ List.replicate (ts.length - (cfg.requestLimit - c)) true := by
  induction ts with
  | nil =>
    intro c x _ hge hle
    simp only [List.length_nil] at hge
    have hc : cfg.requestLimit - c = 0 := by omega
    simp [runTimes, hc]
  | cons t ts ih =>
    intro c x hin hge hle
    simp only [List.length_cons] at hge
    have ht : t < x := hin t (List.mem_cons_self t ts)
    by_cases hL : c + 1 ≤ cfg.requestLimit
    · have hr := rateLimit_eq cfg noErrors (some ⟨c, some x⟩) t
        (runSteps_allowed cfg c x t ht hL)
      obtain ⟨ih1, ih2⟩ := ih (c + 1) x
        (fun t' ht' => hin t' (List.mem_cons_of_mem t ht')) (by omega) hL
      have hrep : cfg.requestLimit - c = (cfg.requestLimit - (c + 1)) + 1 := by
        omega
      have hrep2 : (ts.length + 1) - (cfg.requestLimit - c)
          = ts.length - (cfg.requestLimit - (c + 1)) := by omega
      constructor
      · simp only [runTimes, hr, List.map_cons, List.length_cons, ih1, hrep,
          hrep2, List.replicate_succ, List.cons_append]
        simp [rateLimitGate, isNext]
      · simp only [runTimes, hr, List.map_cons, List.length_cons, ih2, hrep,
          hrep2, List.replicate_succ, List.cons_append]
        simp [rateLimitGate, is429]
    · have hL2 : cfg.requestLimit < c + 1 := by omega
      have hc : c = cfg.requestLimit := by omega
      have hr := rateLimit_eq cfg noErrors (some ⟨c, some x⟩) t
        (runSteps_denied cfg c x t ht hL2)
      obtain ⟨ih1, ih2⟩ := ih c x
        (fun t' ht' => hin t' (List.mem_cons_of_mem t ht')) (by omega) hle
      have hrep : cfg.requestLimit - c = 0 := by omega
      constructor
      · simp only [runTimes, hr, List.map_cons, List.length_cons, ih1, hrep,
          List.replicate_succ, List.nil_append, Nat.zero_le, Nat.sub_zero]
        simp [rateLimitGate, isNext]
      · simp only [runTimes, hr, List.map_cons, List.length_cons, ih2, hrep,
          List.replicate_succ, List.nil_append, Nat.zero_le, Nat.sub_zero]
        simp [rateLimitGate, is429]

/-- The `X-RateLimit-Remaining` values of a list of responses, in
order (responses without headers contribute nothing). -/
def remList (rs : List Response) : List Int :=
  rs.filterMap fun r => r.headers.map Headers.remaining

/-- The remaining-header trace predicted for `n` same-key in-window
requests starting from stored count `c`: each request reports
`requestsRemaining (c + 1)` and bumps the stored count only while under
the limit. -/
def remTrace (cfg : Config) : Nat → Nat → List Int
  | _, 0 => []
  | c, n + 1 =>
    requestsRemaining cfg (c + 1)
      :: remTrace cfg (if c + 1 ≤ cfg.requestLimit then c + 1 else c) n

lemma remList_runTimes (cfg : Config) (ts : List Int) :
    ∀ (c : Nat) (x : Int), (∀ t ∈ ts, t < x) →
      remList (runTimes cfg (some ⟨c, some x⟩) ts).1
        = remTrace cfg c ts.length := by
  induction ts with
  | nil => intro c x _; simp [runTimes, remList, remTrace]
  | cons t ts ih =>
    intro c x hin
    have ht : t < x := hin t (List.mem_cons_self t ts)
    have hin' : ∀ t' ∈ ts, t' < x := fun t' ht' =>
      hin t' (List.mem_cons_of_mem t ht')
    by_cases hL : c + 1 ≤ cfg.requestLimit
    · have hr := rateLimit_eq cfg noErrors (some ⟨c, some x⟩) t
        (runSteps_allowed cfg c x t ht hL)
      simp only [runTimes, hr, remList, List.filterMap_cons, gate_headers,
        Option.map_some, List.length_cons, remTrace, if_pos hL]
      exact congrArg _ (ih (c + 1) x hin')
    · have hL2 : cfg.requestLimit < c + 1 := by omega
      have hr := rateLimit_eq cfg noErrors (some ⟨c, some x⟩) t
        (runSteps_denied cfg c x t ht hL2)
      simp only [runTimes, hr, remList, List.filterMap_cons, gate_headers,
        Option.map_some, List.length_cons, remTrace, if_neg hL]
      exact congrArg _ (ih c x hin')

lemma remTrace_chain (cfg : Config) :
    ∀ (n c : Nat), List.Chain' (fun a b => b ≤ a) (remTrace cfg c n) := by
  intro n
  induction n with
  | zero => intro c; simp [remTrace]
  | succ n ih =>
    intro c
    rw [remTrace, List.chain'_cons']
    refine ⟨?_, ih _⟩
    intro y hy
    cases n with
    | zero => simp [remTrace] at hy
    | succ m =>
      rw [remTrace] at hy
      simp only [List.head?_cons, Option.mem_def, Option.some.injEq] at hy
      subst hy
      refine requestsRemaining_le cfg ?_
      split_ifs <;> omega

lemma rateLimit_headers_nonneg (cfg : Config) (er : OpErrors) (st : Cache)
    (now : Int) (h : Headers) :
    (rateLimit cfg er st now).1.headers = some h → 0 ≤ h.remaining := by
  unfold rateLimit
  cases hd : (runSteps cfg er st now).1 with
  | none => simp [rateLimitGate]
  | some d =>
    rw [gate_headers]
    intro hh
    have : setRateLimitHeaders cfg d = h := Option.some.inj hh
    rw [← this]
    exact requestsRemaining_nonneg cfg d.count

lemma runTimes_headers_nonneg (cfg : Config) (ts : List Int) :
    ∀ (st : Cache), ∀ r ∈ (runTimes cfg st ts).1, ∀ h,
      r.headers = some h → 0 ≤ h.remaining := by
  induction ts with
  | nil => intro st r hr; simp [runTimes] at hr
  | cons t ts ih =>
    intro st r hr h hh
    simp only [runTimes, List.mem_cons] at hr
    rcases hr with rfl | hr
    · exact rateLimit_headers_nonneg cfg noErrors st t h hh
    · exact ih _ r hr h hh

/-- Substituting at a decomposed match: the prefix and suffix survive. -/
lemma substFirst_at (pre mid suf v : Key) :
    substFirst pre.length mid.length v (pre ++ mid ++ suf) = pre ++ v ++ suf := by
  unfold substFirst
  have h1 : (pre ++ mid ++ suf).take pre.length = pre := by
    rw [List.append_assoc]
    exact List.take_left' rfl
  have h2 : (pre ++ mid ++ suf).drop (pre.length + mid.length) = suf :=
    List.drop_left' (by simp)
  rw [h1, h2]

lemma replaceID_of_match (m : Matcher) (v : Key) (k : Key) (hv : v ≠ [])
    (i l : Nat) (hm : m k = some (i, l)) :
    replaceID ⟨some m, v⟩ k = substFirst i l v k := by
  simp [replaceID, replaceMatch, hv, hm]

/-- Whenever the gate receives a decision (no store fault reached it),
that decision has the tentative count, the strict limit test, and - on a
missing or expired key - a fresh full-window ttl, whatever error flags
were set on skipped calls. -/
lemma runSteps_some_shape (cfg : Config) (er : OpErrors) (st : Cache)
    (now : Int) (d : Decision) (hd : (runSteps cfg er st now).1 = some d) :
    d.count = (if keyExists st now then storedCount st + 1 else 1)
    ∧ (keyExists st now = false → d.ttl = (cfg.timeWindow : Int) * 1000)
    ∧ d.atLimit = atLimitOf cfg (some d.count) := by
  rcases er with ⟨e1, e2, e3, e4, e5⟩
  cases e1 with
  | true => simp [runSteps, checkRequestExists] at hd
  | false =>
  by_cases hex : keyExists st now = true
  · cases e2 with
    | true =>
      simp [runSteps, checkRequestExists, getRequestCount, hex] at hd
    | false =>
      cases e3 with
      | true =>
        simp [runSteps, checkRequestExists, getRequestCount, getRequestTTL,
          hex] at hd
      | false =>
        by_cases hA : atLimitOf cfg (some (storedCount st + 1)) = true
        · have key : (runSteps cfg ⟨false, false, false, e4, e5⟩ st now).1
              = some ⟨storedCount st + 1, pttlReply st now, true⟩ := by
            simp [runSteps, checkRequestExists, getRequestCount,
              getRequestTTL, incrRequestCount, setRequestTTL, hex, hA]
          rw [key] at hd
          obtain rfl := Option.some.inj hd
          simp [hex, hA]
        · have hA2 : atLimitOf cfg (some (storedCount st + 1)) = false := by
            simpa using hA
          cases e4 with
          | true =>
            simp [runSteps, checkRequestExists, getRequestCount,
              getRequestTTL, incrRequestCount, hex, hA2] at hd
          | false =>
            cases e5 with
            | true =>
              simp [runSteps, checkRequestExists, getRequestCount,
                getRequestTTL, incrRequestCount, setRequestTTL, hex,
                hA2] at hd
            | false =>
              have key : (runSteps cfg ⟨false, false, false, false, false⟩
                    st now).1
                  = some ⟨storedCount st + 1, pttlReply st now, false⟩ := by
                simp [runSteps, checkRequestExists, getRequestCount,
                  getRequestTTL, incrRequestCount, setRequestTTL, hex, hA2]
              rw [key] at hd
              obtain rfl := Option.some.inj hd
              simp [hex, hA2]
  · have hex2 : keyExists st now = false := by simpa using hex
    by_cases hA : atLimitOf cfg (some 1) = true
    · have key : (runSteps cfg ⟨false, e2, e3, e4, e5⟩ st now).1
          = some ⟨1, (cfg.timeWindow : Int) * 1000, true⟩ := by
        simp [runSteps, checkRequestExists, getRequestCount, getRequestTTL,
          incrRequestCount, setRequestTTL, hex2, hA]
      rw [key] at hd
      obtain rfl := Option.some.inj hd
      simp [hex2, hA]
    · have hA2 : atLimitOf cfg (some 1) = false := by simpa using hA
      cases e4 with
      | true =>
        simp [runSteps, checkRequestExists, getRequestCount, getRequestTTL,
          incrRequestCount, hex2, hA2] at hd
      | false =>
        cases e5 with
        | true =>
          simp [runSteps, checkRequestExists, getRequestCount,
            getRequestTTL, incrRequestCount, setRequestTTL, hex2, hA2] at hd
        | false =>
          have key : (runSteps cfg ⟨false, e2, e3, false, false⟩ st now).1
              = some ⟨1, (cfg.timeWindow : Int) * 1000, false⟩ := by
            simp [runSteps, checkRequestExists, getRequestCount,
              getRequestTTL, incrRequestCount, setRequestTTL, hex2, hA2]
          rw [key] at hd
          obtain rfl := Option.some.inj hd
          simp [hex2, hA2]

/-! ## Claims -/

/-- Claim C1: with `requestLimit = N`, a same-key sequence of `N + 1`
requests within one window lets exactly the first `N` through (the
continuation is called) and rejects the `(N+1)`-th with status 429;
moreover the deny test is strict: a reached decision has
`atLimit` true iff `count > requestLimit`, where `count` is the stored
count plus one for the current request (`1` on a fresh window). -/
theorem c1_limit_enforced (cfg : Config) (hN : 0 < cfg.requestLimit)
    (hW : 0 < cfg.timeWindow) (t0 : Int) (rest : List Int)
    (hlen : rest.length = cfg.requestLimit)
    (hin : ∀ t ∈ rest, t < t0 + (cfg.timeWindow : Int) * 1000) :
    ((runTimes cfg none (t0 :: rest)).1.map isNext
        = List.replicate cfg.requestLimit true ++ [false]
      ∧ (runTimes cfg none (t0 :: rest)).1.map is429
        = List.replicate cfg.requestLimit false ++ [true])
    ∧ ∀ (st : Cache) (now : Int) (d : Decision),
        (runSteps cfg noErrors st now).1 = some d →
          (d.atLimit = true ↔ cfg.requestLimit < d.count)
          ∧ (keyExists st now = true → d.count = storedCount st + 1)
          ∧ (keyExists st now = false → d.count = 1) := by
  constructor
  · have hr := rateLimit_eq cfg noErrors none t0
      (runSteps_fresh cfg none t0 (by simp [keyExists]) hN hW)
    obtain ⟨p1, p2⟩ := runTimes_pattern cfg rest 1
      (t0 + (cfg.timeWindow : Int) * 1000) hin (by omega) hN
    obtain ⟨k, hk⟩ : ∃ k, cfg.requestLimit = k + 1 :=
      ⟨cfg.requestLimit - 1, by omega⟩
    rw [hk] at p1 p2 hlen ⊢
    simp only [Nat.add_sub_cancel] at p1 p2
    have e1 : rest.length - k = 1 := by omega
    rw [e1, List.replicate_one] at p1 p2
    constructor
    · simp only [runTimes, hr, List.map_cons, p1, List.replicate_succ,
        List.cons_append]
      simp [rateLimitGate, isNext]
    · simp only [runTimes, hr, List.map_cons, p2, List.replicate_succ,
        List.cons_append]
      simp [rateLimitGate, is429]
  · intro st now d hd
    rw [runSteps_noErrors_fst] at hd
    obtain rfl := Option.some.inj hd
    by_cases hex : keyExists st now = true
    · simp [hex, atLimitOf]
    · have hex2 : keyExists st now = false := by simpa using hex
      simp [hex2, atLimitOf]

/-- Witness for C1 at `requestLimit = 2`, `timeWindow = 60`: requests at
0ms, 1ms and 2ms give allow, allow, 429. -/
theorem c1_limit_enforced_witness :
    (runTimes ⟨2, 60⟩ none [0, 1, 2]).1.map isNext = [true, true, false]
    ∧ (runTimes ⟨2, 60⟩ none [0, 1, 2]).1.map is429 = [false, false, true] := by
  have h := (c1_limit_enforced ⟨2, 60⟩ (by decide) (by decide) 0 [1, 2]
    (by decide) (by decide)).1
  exact ⟨h.1.trans (by decide), h.2.trans (by decide)⟩

/-- Claim C2 (code bug): `src/index.js` never reads
`enforceRequestSpreading`, so construction with
`requestLimit = 10, timeWindow = 60, enforceRequestSpreading = true`
keeps `(10, 60)` unchanged instead of transforming to `(1, 6)`, and two
same-key requests in rapid succession are then BOTH allowed, where the
claim (and the repository's README and test suite) demands the second
be rejected. -/
theorem c2_spreading_ignored :
    ExpressRedisRateLimit (.object { requestLimit := .num 10
                                     timeWindow := .num 60
                                     enforceRequestSpreading := .bool true })
      = .ok { requestLimit := .num 10
              timeWindow := .num 60
              enforceRequestSpreading := .bool true
              idMatcher := .regex 0
              idValue := .str ":id"
              createKey := .fn 0
              rateLimitMessage := .fn 1
              internalErrorMessage := .obj 0 }
    ∧ (runTimes ⟨10, 60⟩ none [0, 1]).1.map isNext = [true, true] :=
  ⟨rfl, rfl⟩

/-- Claim C3 (code bug): when the `EXISTS` call faults on a fresh key,
the 500 response with `internalErrorMessage` is sent (first invocation
of the once-wrapped gate), but - because `next(error)` is not followed
by a `return` - the waterfall continues with
`exists = !!parseInt(undefined) = false`, executes the later `INCR` and
`PEXPIRE` store steps, and the faulting request ends up counted: the
store goes from absent to a counter of 1 with a fresh window. -/
theorem c3_fault_executes_rest :
    rateLimit ⟨60, 60⟩ ⟨true, false, false, false, false⟩ none 0
      = ({ headers := none, action := .send 500 .internalErrorMsg },
         some ⟨1, some 60000⟩) :=
  rfl

/-- Counterexample to claim C4: on a store fault (here a failing `GET`
on a live entry) the 500 response carries no `X-RateLimit` headers at
all - `rateLimitGate` returns before `setRateLimitHeaders` runs. -/
theorem c4_fault_drops_headers :
    (rateLimit ⟨60, 60⟩ ⟨false, true, false, false, false⟩
        (some ⟨3, some 1000⟩) 0).1
      = { headers := none, action := .send 500 .internalErrorMsg } :=
  rfl

/-- Claim C4 as amended: the four informational headers are set on
exactly the non-fault outcomes (allowed and 429); the store-fault 500
response is the one outcome without them. -/
theorem c4_headers_iff_no_fault (cfg : Config) (er : OpErrors)
    (st : Cache) (now : Int) :
    (rateLimit cfg er st now).1.headers = none
      ↔ (rateLimit cfg er st now).1.action = .send 500 .internalErrorMsg := by
  unfold rateLimit
  cases hd : (runSteps cfg er st now).1 with
  | none => simp [rateLimitGate]
  | some d => by_cases hA : d.atLimit <;> simp [rateLimitGate, hA]

/-- Claim C5: whenever headers are set, they are exactly
`Limit = requestLimit`, `Remaining = max 0 (requestLimit - count)`,
`Window = timeWindow * 1000` (independent of the decision), and
`Reset =` the decision's ttl, which is `timeWindow * 1000` on the first
request of a fresh window. -/
theorem c5_header_contract (cfg : Config) (er : OpErrors) (st : Cache)
    (now : Int) (h : Headers)
    (hh : (rateLimit cfg er st now).1.headers = some h) :
    ∃ d, (runSteps cfg er st now).1 = some d
      ∧ h.limit = cfg.requestLimit
      ∧ h.remaining = max 0 ((cfg.requestLimit : Int) - (d.count : Int))
      ∧ h.window = (cfg.timeWindow : Int) * 1000
      ∧ h.reset = d.ttl
      ∧ (keyExists st now = false → d.ttl = (cfg.timeWindow : Int) * 1000) := by
  unfold rateLimit at hh
  cases hd : (runSteps cfg er st now).1 with
  | none => rw [hd] at hh; simp [rateLimitGate] at hh
  | some d =>
    rw [hd, gate_headers] at hh
    obtain rfl := Option.some.inj hh
    exact ⟨d, rfl, rfl, requestsRemaining_eq_max cfg d.count, rfl, rfl,
      fun hex => (runSteps_some_shape cfg er st now d hd).2.1 hex⟩

/-- Witness for C5: the first request of a fresh window under the
default 60/60 configuration reports 60, 59, 60000, 60000. -/
theorem c5_header_contract_witness :
    ∃ d, (runSteps ⟨60, 60⟩ noErrors none 0).1 = some d
      ∧ (⟨60, 59, 60000, 60000⟩ : Headers).limit
          = (⟨60, 60⟩ : Config).requestLimit
      ∧ (⟨60, 59, 60000, 60000⟩ : Headers).remaining
          = max 0 (((⟨60, 60⟩ : Config).requestLimit : Int) - (d.count : Int))
      ∧ (⟨60, 59, 60000, 60000⟩ : Headers).window
          = ((⟨60, 60⟩ : Config).timeWindow : Int) * 1000
      ∧ (⟨60, 59, 60000, 60000⟩ : Headers).reset = d.ttl
      ∧ (keyExists none 0 = false →
          d.ttl = ((⟨60, 60⟩ : Config).timeWindow : Int) * 1000) :=
  c5_header_contract ⟨60, 60⟩ noErrors none 0 ⟨60, 59, 60000, 60000⟩ rfl

/-- Claim C6: an error-free request whose decision is at the limit
leaves the store entry entirely unchanged (no increment, no expiry
write), and no error-free request ever pushes the stored counter past
`max (previous value) requestLimit`. -/
theorem c6_denied_request_frame (cfg : Config) (st : Cache) (now : Int) :
    (∀ (d : Decision) (st2 : Cache),
        runSteps cfg noErrors st now = (some d, st2) → d.atLimit = true →
          st2 = st)
    ∧ storedCount (runSteps cfg noErrors st now).2
        ≤ max (storedCount st) cfg.requestLimit := by
  constructor
  · exact fun d st2 h hA => runSteps_atLimit_frame cfg st now d st2 h hA
  · by_cases hA : atLimitOf cfg
        (some (if keyExists st now then storedCount st + 1 else 1)) = true
    · have hfr : (runSteps cfg noErrors st now).2 = st := by
        by_cases hex : keyExists st now <;>
          simp_all [runSteps, checkRequestExists, getRequestCount,
            getRequestTTL, incrRequestCount, setRequestTTL, noErrors]
      rw [hfr]
      exact le_max_left _ _
    · have hst2 : (runSteps cfg noErrors st now).2
          = redisPexpire (redisIncr st now)
              (if keyExists st now then pttlReply st now
               else (cfg.timeWindow : Int) * 1000) now := by
        by_cases hex : keyExists st now <;>
          simp_all [runSteps, checkRequestExists, getRequestCount,
            getRequestTTL, incrRequestCount, setRequestTTL, noErrors]
      rw [hst2]
      have h1 := storedCount_redisPexpire (redisIncr st now)
        (if keyExists st now then pttlReply st now
         else (cfg.timeWindow : Int) * 1000) now
      by_cases hex : keyExists st now = true
      · have h2 := storedCount_redisIncr st now
        have hc : storedCount st + 1 ≤ cfg.requestLimit := by
          simp [atLimitOf, hex] at hA
          omega
        have h3 := le_max_right (storedCount st) cfg.requestLimit
        omega
      · have hex2 : keyExists st now = false := by simpa using hex
        have h2 := storedCount_redisIncr_fresh st now hex2
        have hc : 1 ≤ cfg.requestLimit := by
          simp [atLimitOf, hex2] at hA
          omega
        have h3 := le_max_right (storedCount st) cfg.requestLimit
        omega

/-- Witness for C6: at `requestLimit = 1` with a stored count of 1, the
second request is at the limit and the store is returned unchanged. -/
theorem c6_denied_request_frame_witness :
    runSteps ⟨1, 60⟩ noErrors (some ⟨1, some 1000⟩) 0
        = (some ⟨2, 1000, true⟩, some ⟨1, some 1000⟩)
    ∧ (runSteps ⟨1, 60⟩ noErrors (some ⟨1, some 1000⟩) 0).2
        = some ⟨1, some 1000⟩ := by
  refine ⟨rfl, ?_⟩
  exact (c6_denied_request_frame ⟨1, 60⟩ (some ⟨1, some 1000⟩) 0).1
    ⟨2, 1000, true⟩ (runSteps ⟨1, 60⟩ noErrors (some ⟨1, some 1000⟩) 0).2
    rfl rfl

/-- Claim C7: across a same-key sequence within one window the reported
`X-RateLimit-Remaining` values are monotonically non-increasing, and no
response ever carries a negative remaining value. -/
theorem c7_remaining_monotone (cfg : Config) (hN : 0 < cfg.requestLimit)
    (hW : 0 < cfg.timeWindow) (t0 : Int) (rest : List Int)
    (hin : ∀ t ∈ rest, t < t0 + (cfg.timeWindow : Int) * 1000) :
    List.Chain' (fun a b => b ≤ a)
      (remList (runTimes cfg none (t0 :: rest)).1)
    ∧ ∀ r ∈ (runTimes cfg none (t0 :: rest)).1, ∀ h,
        r.headers = some h → 0 ≤ h.remaining := by
  have hr := rateLimit_eq cfg noErrors none t0
    (runSteps_fresh cfg none t0 (by simp [keyExists]) hN hW)
  constructor
  · have htail := remList_runTimes cfg rest 1
      (t0 + (cfg.timeWindow : Int) * 1000) hin
    have hthis : remList (runTimes cfg none (t0 :: rest)).1
        = remTrace cfg 0 (rest.length + 1) := by
      rw [remTrace, if_pos (by omega : 0 + 1 ≤ cfg.requestLimit)]
      simp only [remList, runTimes, hr, List.filterMap_cons, gate_headers,
        Option.map_some]
      simp only [remList] at htail
      rw [htail]
      rfl
    rw [hthis]
    exact remTrace_chain cfg (rest.length + 1) 0
  · exact fun r hr' h hh =>
      runTimes_headers_nonneg cfg (t0 :: rest) none r hr' h hh

/-- Witness for C7 at `requestLimit = 2`: remaining goes 1, 0, 0. -/
theorem c7_remaining_monotone_witness :
    List.Chain' (fun a b => b ≤ a)
      (remList (runTimes ⟨2, 60⟩ none [0, 1, 2]).1) :=
  (c7_remaining_monotone ⟨2, 60⟩ (by decide) (by decide) 0 [1, 2]
    (by decide)).1

/-- Counterexample to claim C8: `requestLimit = 0` is non-positive, yet
construction succeeds - the falsy `0` skips the validation check - and
the zero limit is kept by defaulting. -/
theorem c8_zero_limit_passes :
    ExpressRedisRateLimit (.object { requestLimit := .num 0 })
      = .ok { requestLimit := .num 0
              timeWindow := .num 60
              idMatcher := .regex 0
              idValue := .str ":id"
              createKey := .fn 0
              rateLimitMessage := .fn 1
              internalErrorMessage := .obj 0 } :=
  rfl

/-- Claim C8 as amended: construction raises a configuration error,
synchronously at setup, for every options object with a truthy
`requestLimit` or `timeWindow` that is not a positive number, a truthy
non-object `idMatcher`, or a truthy `idMatcher` together with a truthy
non-string `idValue`; falsy violating values (zero limit or window,
missing `idValue`) instead pass validation silently. -/
theorem c8_validation_raises (o : OptsIn)
    (hviol : (truthy o.requestLimit && !isPositiveNumber o.requestLimit) = true
      ∨ (truthy o.timeWindow && !isPositiveNumber o.timeWindow) = true
      ∨ (truthy o.idMatcher && !(jsTypeof o.idMatcher == "object")) = true
      ∨ (truthy o.idMatcher && truthy o.idValue
          && !(jsTypeof o.idValue == "string")) = true) :
    ∃ msg, ExpressRedisRateLimit (.object o) = .error msg := by
  simp only [ExpressRedisRateLimit, validateOptions]
  split_ifs with h1 h2 h3 h4 h5 h6 h7
  any_goals exact ⟨_, rfl⟩
  rcases hviol with h | h | h | h <;> simp_all

/-- Witness for C8: a negative request limit is rejected. -/
theorem c8_validation_raises_witness :
    ∃ msg, ExpressRedisRateLimit
        (.object { requestLimit := .num (-1) }) = .error msg :=
  c8_validation_raises { requestLimit := .num (-1) } (Or.inl (by decide))

/-- Counterexample to claim C9: with `idMatcher` configured and
`idValue` the empty string (falsy in JavaScript), `replaceID` skips the
substitution entirely, so the derived key keeps the matched region
instead of receiving the claimed single substitution (which would have
removed it). -/
theorem c9_empty_idValue_skips :
    replaceID ⟨some lastCharMatcher, []⟩ ['a', 'b'] = ['a', 'b']
    ∧ substFirst 1 1 [] ['a', 'b'] = ['a']
    ∧ (['a', 'b'] : Key) ≠ ['a'] :=
  ⟨rfl, rfl, by decide⟩

/-- Claim C9 as amended: with `idMatcher` disabled the raw key is
returned unchanged; with `idMatcher` configured and a truthy (non-empty)
`idValue`, `replaceID` performs exactly one substitution of the first
matched region by `idValue` (and is the identity when nothing matches);
derivation is deterministic, and two raw keys that differ only in a
region matched by the matcher derive to the same key. -/
theorem c9_key_derivation (m : Matcher) (v : Key) :
    (∀ k, replaceID ⟨none, v⟩ k = k)
    ∧ (∀ k, v ≠ [] → m k = none → replaceID ⟨some m, v⟩ k = k)
    ∧ (∀ k i l, v ≠ [] → m k = some (i, l) →
        replaceID ⟨some m, v⟩ k = k.take i ++ v ++ k.drop (i + l))
    ∧ (∀ k1 k2, k1 = k2 →
        replaceID ⟨some m, v⟩ k1 = replaceID ⟨some m, v⟩ k2)
    ∧ (∀ pre mid1 mid2 suf, v ≠ [] →
        m (pre ++ mid1 ++ suf) = some (pre.length, mid1.length) →
        m (pre ++ mid2 ++ suf) = some (pre.length, mid2.length) →
        replaceID ⟨some m, v⟩ (pre ++ mid1 ++ suf)
          = replaceID ⟨some m, v⟩ (pre ++ mid2 ++ suf)) := by
  refine ⟨?_, ?_, ?_, ?_, ?_⟩
  · intro k
    simp [replaceID]
  · intro k hv hm
    simp [replaceID, replaceMatch, hv, hm]
  · intro k i l hv hm
    rw [replaceID_of_match m v k hv i l hm]
    rfl
  · intro k1 k2 h
    rw [h]
  · intro pre mid1 mid2 suf hv h1 h2
    rw [replaceID_of_match m v _ hv _ _ h1,
      replaceID_of_match m v _ hv _ _ h2, substFirst_at, substFirst_at]

/-- Witness for C9: replacing the final character of `"ab"` by `":"`. -/
theorem c9_key_derivation_witness :
    replaceID ⟨some lastCharMatcher, [':']⟩ ['a', 'b']
      = (['a', 'b'] : Key).take 1 ++ [':'] ++ (['a', 'b'] : Key).drop (1 + 1) :=
  (c9_key_derivation lastCharMatcher [':']).2.2.1 ['a', 'b'] 1 1
    (by decide) (by decide)

/-- Claim C10: constructing with the options argument absent
(`undefined` or `null`) succeeds, validation yields the empty option
set, and every configuration field takes its documented default. -/
theorem c10_default_configuration :
    ExpressRedisRateLimit .undef = .ok defaultOptions
    ∧ ExpressRedisRateLimit .null = .ok defaultOptions
    ∧ validateOptions .undef = .ok {}
    ∧ validateOptions .null = .ok {}
    ∧ defaultOptions.requestLimit = .num 60
    ∧ defaultOptions.timeWindow = .num 60
    ∧ defaultOptions.idMatcher = .regex 0
    ∧ defaultOptions.idValue = .str ":id"
    ∧ defaultOptions.createKey = .fn 0
    ∧ defaultOptions.rateLimitMessage = .fn 1
    ∧ defaultOptions.internalErrorMessage = .obj 0
    ∧ defaultOptions.enforceRequestSpreading = .undefined :=
  ⟨rfl, rfl, rfl, rfl, rfl, rfl, rfl, rfl, rfl, rfl, rfl, rfl⟩

end ERRL
